import Mathlib

/-!
Shallow embedding of the visa-map backend (JavaScript) pieces relevant to
the personalization, progress, journey and access-control behavior:

* `src/models/VisaType.js` — `getConditionalDocuments`, `getPersonalizedSteps`
* `src/services/pdfService.js` — `evaluateConditions`, `processDocuments`,
  `processVisaSteps`, `calculateTotalFee`
* `src/models/Journey.js` (unnamed part) — `updateProgress`,
  `updatePersonalization`, `markStepCompleted`, `updateChecklist`, `addNote`
* `src/controllers/journeyController.js` — `createOrUpdateJourney`,
  `addJourneyNote`, `updateStepCompletion`

JavaScript dynamic values are modelled by `JSVal`; objects used as maps by
association lists with `lookup` returning `JSVal.undefined` on a missing key;
operations that can throw a runtime `TypeError` return `Option`.
-/

namespace VisaMap

/-- A JavaScript scalar value (the shapes occurring in conditions and
personalization answers). -/
inductive JSVal where
  | undefined
  | null
  | bool (b : Bool)
  | num (n : Int)
  | str (s : String)
deriving DecidableEq, Repr

namespace JSVal

/-- JavaScript truthiness of a `JSVal`. -/
def truthy : JSVal → Bool
  | .undefined => false
  | .null => false
  | .bool b => b
  | .num n => n != 0
  | .str s => s != ""

/-- JavaScript strict equality `===` between scalars (no coercion). -/
def strictEq (a b : JSVal) : Bool := a = b

/-- `typeof v === 'string'`. -/
def isStr : JSVal → Bool
  | .str _ => true
  | _ => false

end JSVal

/-- A JS object used as a string-keyed map; property access on a missing
key yields `undefined`. -/
abbrev JSObj := List (String × JSVal)

/-- Property access `obj[key]`: the first binding wins, `undefined` if absent. -/
def lookup (m : JSObj) (k : String) : JSVal :=
  match m.find? (fun p => p.1 = k) with
  | some p => p.2
  | none => .undefined

/-- Spread merge `{...base, ...partial}`: keys of `partial` override `base`. -/
def mergeObj (base part : JSObj) : JSObj :=
  base.filter (fun kv => !(part.any (fun kv2 => kv2.1 = kv.1))) ++ part

/-! ## VisaType.js: conditional documents and personalized steps -/

/-- The `showIf` clause `{field, value}` of a `conditionalLogic` object. -/
structure ShowIf where
  field : String
  value : JSVal
deriving DecidableEq, Repr

/-- A `conditionalLogic` object, whose `showIf` property may be absent. -/
structure CondLogic where
  showIf : Option ShowIf
deriving DecidableEq, Repr

/-- A requirements document item, as consumed by `getConditionalDocuments`.
`isPersonalized` is a dynamic property: absent (`none`) on catalog items. -/
structure DocItem where
  name : String
  conditionalLogic : Option CondLogic
  isPersonalized : Option Bool := none
deriving DecidableEq, Repr

/-- The filter body of `getConditionalDocuments`:
if `!doc.conditionalLogic || !doc.conditionalLogic.showIf` the document is
shown; otherwise `userResponses[field] === value`.  `Option` carries a
potential runtime error (none arises here: every branch is guarded). -/
def docVisibleE (userResponses : JSObj) (doc : DocItem) : Option Bool :=
  match doc.conditionalLogic with
  | none => some true
  | some cl =>
    match cl.showIf with
    | none => some true
    | some si => some (JSVal.strictEq (lookup userResponses si.field) si.value)

/-- `Array.prototype.filter` with a predicate that may throw. -/
def filterDocs (userResponses : JSObj) : List DocItem → Option (List DocItem)
  | [] => some []
  | d :: rest => do
    let v ← docVisibleE userResponses d
    let tail ← filterDocs userResponses rest
    if v then pure (d :: tail) else pure tail

/-- `visaTypeSchema.methods.getConditionalDocuments`. -/
def getConditionalDocuments (docs : List DocItem) (userResponses : JSObj) :
    Option (List DocItem) :=
  filterDocs userResponses docs

/-- An application-process step, as consumed by `getPersonalizedSteps`. -/
structure StepItem where
  name : String
  stepNumber : Int
  isConditional : Bool
  conditionalLogic : Option CondLogic
  isPersonalized : Option Bool := none
deriving DecidableEq, Repr

/-- The filter body of `getPersonalizedSteps`:
if `!step.isConditional || !step.conditionalLogic` the step is shown;
otherwise the code destructures `step.conditionalLogic.showIf`, which throws
a `TypeError` (`none`) when `showIf` is absent. -/
def stepVisibleE (userResponses : JSObj) (s : StepItem) : Option Bool :=
  if !s.isConditional || s.conditionalLogic.isNone then some true
  else
    match s.conditionalLogic with
    | none => some true
    | some cl =>
      match cl.showIf with
      | none => none
      | some si => some (JSVal.strictEq (lookup userResponses si.field) si.value)

/-- `Array.prototype.filter` over steps, propagating a thrown error. -/
def filterSteps (userResponses : JSObj) : List StepItem → Option (List StepItem)
  | [] => some []
  | s :: rest => do
    let v ← stepVisibleE userResponses s
    let tail ← filterSteps userResponses rest
    if v then pure (s :: tail) else pure tail

/-- Stable insertion of a step into a list sorted by `stepNumber`
(mirrors the stability of `Array.prototype.sort` with the comparator
`(a, b) => a.stepNumber - b.stepNumber`). -/
def insertByStep (s : StepItem) : List StepItem → List StepItem
  | [] => [s]
  | t :: rest =>
    if s.stepNumber < t.stepNumber then s :: t :: rest else t :: insertByStep s rest

/-- Sort steps by `stepNumber`, stably. -/
def sortSteps (l : List StepItem) : List StepItem :=
  l.foldl (fun acc s => insertByStep s acc) []

/-- `visaTypeSchema.methods.getPersonalizedSteps`: filter, then sort by
`stepNumber`. -/
def getPersonalizedSteps (steps : List StepItem) (userResponses : JSObj) :
    Option (List StepItem) :=
  (filterSteps userResponses steps).map sortSteps

/-! ## pdfService.js: condition evaluation, personalization, fees -/

/-- `evaluateConditions(conditions, personalizationData)`: `true` when
`conditions` is falsy; otherwise every `[key, expectedValue]` entry must
pass: `expectedValue === true` demands a truthy answer, `=== false` a falsy
one, and a string expected value demands strict equality. -/
def evaluateConditions (conditions : Option JSObj) (personalizationData : JSObj) :
    Bool :=
  match conditions with
  | none => true
  | some cs =>
    cs.all fun kv =>
      let actual := lookup personalizationData kv.1
      !(kv.2 = JSVal.bool true && !actual.truthy) &&
      !(kv.2 = JSVal.bool false && actual.truthy) &&
      !(kv.2.isStr && !(JSVal.strictEq actual kv.2))

/-- An item (step or document) as processed by the PDF service; `conditions`
is a JS object of `{key: expectedValue}` pairs, `isPersonalized` is absent
on catalog items. -/
structure PdfItem where
  name : String
  conditions : Option JSObj
  isPersonalized : Option Bool := none
deriving DecidableEq, Repr

/-- `processDocuments(documents, personalizationData)`: keep items whose
conditions (when present) evaluate true, then tag each surviving item with
`isPersonalized: !!doc.conditions`. -/
def processDocuments (documents : List PdfItem) (personalizationData : JSObj) :
    List PdfItem :=
  (documents.filter fun d =>
      match d.conditions with
      | some cs => evaluateConditions (some cs) personalizationData
      | none => true).map
    fun d => { d with isPersonalized := some d.conditions.isSome }

/-- `processVisaSteps(steps, personalizationData)`: same logic as
`processDocuments`, applied to steps. -/
def processVisaSteps (steps : List PdfItem) (personalizationData : JSObj) :
    List PdfItem :=
  (steps.filter fun s =>
      match s.conditions with
      | some cs => evaluateConditions (some cs) personalizationData
      | none => true).map
    fun s => { s with isPersonalized := some s.conditions.isSome }

/-- An `additionalFee` entry of a fee schedule. -/
structure AdditionalFee where
  amount : Int
  conditions : Option JSObj
deriving DecidableEq, Repr

/-- A fee schedule `{base, additional}`; either part may be absent. -/
structure Fees where
  base : Option Int
  additional : Option (List AdditionalFee)
deriving DecidableEq, Repr

/-- `calculateTotalFee(fees, personalizationData)`: 0 when `fees` is falsy,
otherwise `fees.base || 0` plus each additional fee whose conditions
evaluate true. -/
def calculateTotalFee (fees : Option Fees) (personalizationData : JSObj) : Int :=
  match fees with
  | none => 0
  | some f =>
    let base := f.base.getD 0
    match f.additional with
    | none => base
    | some adds =>
      adds.foldl
        (fun total af =>
          if evaluateConditions af.conditions personalizationData then
            total + af.amount
          else total)
        base

/-! ## Journey.js: progress metrics and instance methods -/

/-- A Mongoose `Map<String, Boolean>` as an association list; `Map.set`
updates in place or appends. -/
abbrev BoolMap := List (String × Bool)

/-- `map.get(key)` on a boolean map: `none` models `undefined`. -/
def getB (m : BoolMap) (k : String) : Option Bool :=
  (m.find? (fun p => p.1 = k)).map (·.2)

/-- `map.set(key, value)` on a boolean map. -/
def setB (m : BoolMap) (k : String) (v : Bool) : BoolMap :=
  if m.any (fun p => p.1 = k) then
    m.map (fun p => if p.1 = k then (k, v) else p)
  else m ++ [(k, v)]

/-- JavaScript `Math.round` on a non-negative rational: ⌊q + 1/2⌋
(round half up). -/
def mathRound (q : ℚ) : ℤ := ⌊q + 1 / 2⌋

/-- The `progressMetrics` subdocument of a journey. -/
structure ProgressMetrics where
  completedSteps : Nat
  totalSteps : Nat
  completedChecklistItems : Nat
  checklistItems : Nat
  completionPercentage : ℤ
deriving DecidableEq, Repr

/-- The progress recomputation shared by `updateProgress` and the
`pre('save')` middleware: counts over the two maps and
`Math.round((completedItems / totalItems) * 100)`, 0 when `totalItems` is 0. -/
def computeMetrics (stepCompletion checklist : BoolMap) : ProgressMetrics :=
  let completedSteps := (stepCompletion.filter (·.2)).length
  let totalSteps := stepCompletion.length
  let completedChecklistItems := (checklist.filter (·.2)).length
  let checklistItems := checklist.length
  let totalItems := totalSteps + checklistItems
  let completedItems := completedSteps + completedChecklistItems
  { completedSteps := completedSteps
    totalSteps := totalSteps
    completedChecklistItems := completedChecklistItems
    checklistItems := checklistItems
    completionPercentage :=
      if totalItems > 0 then
        mathRound ((completedItems : ℚ) / (totalItems : ℚ) * 100)
      else 0 }

/-- Journey timestamps, modelled as "has been stamped" flags. -/
structure Timestamps where
  journeyStarted : Bool := false
  lastActivity : Bool := false
  personalizationUpdated : Bool := false
  casAutoCompleted : Bool := false
  stepCompleted : Bool := false
  checklistUpdated : Bool := false
deriving DecidableEq, Repr

/-- A `notes` array entry. -/
structure NoteRec where
  content : String
  author : String
deriving DecidableEq, Repr

/-- A `sharedWith` array entry. -/
structure ShareRec where
  email : String
  permissions : String
deriving DecidableEq, Repr

/-- The journey document: the fields the modelled operations read or write. -/
structure Journey where
  id : Nat
  userId : Nat
  originCountry : String
  destinationCountry : String
  userType : String
  visaType : String
  status : String
  personalizationData : JSObj
  stepCompletion : BoolMap
  checklist : BoolMap
  progressMetrics : ProgressMetrics
  timestamps : Timestamps
  notes : List NoteRec
  sharedWith : List ShareRec
deriving DecidableEq, Repr

/-- `journeySchema.methods.updateProgress` (with the `save` it triggers):
recompute `progressMetrics` from the two maps and stamp `lastActivity`. -/
def updateProgressJ (j : Journey) : Journey :=
  { j with
    progressMetrics := computeMetrics j.stepCompletion j.checklist
    timestamps := { j.timestamps with lastActivity := true } }

/-- `journeySchema.methods.markStepCompleted`. -/
def markStepCompleted (j : Journey) (stepId : String) : Journey :=
  updateProgressJ
    { j with
      stepCompletion := setB j.stepCompletion stepId true
      timestamps := { j.timestamps with stepCompleted := true } }

/-- `journeySchema.methods.updateChecklist`. -/
def updateChecklist (j : Journey) (checklistUpdates : BoolMap) : Journey :=
  updateProgressJ
    { j with
      checklist := checklistUpdates.foldl (fun m kv => setB m kv.1 kv.2) j.checklist
      timestamps := { j.timestamps with checklistUpdated := true } }

/-- `journeySchema.methods.updatePersonalization`: spread-merge the partial
update into `personalizationData`; **iff the partial update's own `hasCAS`
is truthy**, auto-complete the `unconditional-offer` and `cas` steps and
stamp `casAutoCompleted`; then recompute progress. -/
def updatePersonalization (j : Journey) (personalizationData : JSObj) : Journey :=
  let j1 :=
    { j with
      personalizationData := mergeObj j.personalizationData personalizationData
      timestamps := { j.timestamps with personalizationUpdated := true } }
  let j2 :=
    if (lookup personalizationData "hasCAS").truthy then
      { j1 with
        stepCompletion :=
          setB (setB j1.stepCompletion "unconditional-offer" true) "cas" true
        timestamps := { j1.timestamps with casAutoCompleted := true } }
    else j1
  updateProgressJ j2

/-- `journeySchema.methods.addNote` (with the `save` it triggers): push the
note and stamp `lastActivity`; the pre-save hook recomputes progress only
when the step/checklist maps were modified, which they are not here. -/
def addNote (j : Journey) (content : String) (author : String) : Journey :=
  { j with
    notes := j.notes ++ [⟨content, author⟩]
    timestamps := { j.timestamps with lastActivity := true } }

/-! ## journeyController.js -/

/-- The error responses the controller produces via `AppError`. -/
inductive ApiError where
  | badRequest (msg : String)
  | notFound
  | forbidden
deriving DecidableEq, Repr

/-- The statuses counted as active. -/
def isActiveStatus (s : String) : Bool :=
  s = "started" || s = "in_progress" || s = "under_review"

/-- The request body of `POST /journeys` (the user already resolved to an
id; absent fields are `none`). -/
structure JourneyBody where
  userId : Nat
  originCountry : String
  destinationCountry : String
  userType : Option String
  visaType : Option String
  personalizationData : Option JSObj
  checklist : Option BoolMap
  stepCompletion : Option BoolMap
deriving Repr

/-- The `Journey.findOne` query of `createOrUpdateJourney`: same user, same
uppercased route, active status. -/
def matchesActive (b : JourneyBody) (j : Journey) : Bool :=
  j.userId = b.userId &&
  j.originCountry = b.originCountry.toUpper &&
  j.destinationCountry = b.destinationCountry.toUpper &&
  isActiveStatus j.status

/-- The update branch of `createOrUpdateJourney`: apply the personalization,
checklist and step-completion updates carried by the body, then overwrite
`userType`/`visaType` when given. `status` is never touched. -/
def applyBodyUpdates (j : Journey) (b : JourneyBody) : Journey :=
  let j := match b.personalizationData with
    | some p => updatePersonalization j p
    | none => j
  let j := match b.checklist with
    | some c => updateChecklist j c
    | none => j
  let j := match b.stepCompletion with
    | some sc =>
      sc.foldl
        (fun j (kv : String × Bool) =>
          if kv.2 then markStepCompleted j kv.1 else j) j
    | none => j
  { j with
    userType := b.userType.getD j.userType
    visaType := b.visaType.getD j.visaType }

/-- The create branch of `createOrUpdateJourney`: a fresh journey with
default status `started`. -/
def newJourney (id : Nat) (b : JourneyBody) : Journey :=
  { id := id
    userId := b.userId
    originCountry := b.originCountry.toUpper
    destinationCountry := b.destinationCountry.toUpper
    userType := b.userType.getD "student"
    visaType := b.visaType.getD "student"
    status := "started"
    personalizationData := b.personalizationData.getD []
    stepCompletion := b.stepCompletion.getD []
    checklist := b.checklist.getD []
    progressMetrics :=
      computeMetrics (b.stepCompletion.getD []) (b.checklist.getD [])
    timestamps := { journeyStarted := true, lastActivity := true }
    notes := []
    sharedWith := [] }

/-- `createOrUpdateJourney`: look up an active journey for
`(userId, route)`; update it in place when found, otherwise append a fresh
one. Returns the new database and the id of the journey acted on. -/
def createOrUpdateJourney (db : List Journey) (b : JourneyBody) (nextId : Nat) :
    List Journey × Nat :=
  match db.find? (matchesActive b) with
  | some j =>
    (db.map (fun x => if x.id = j.id then applyBodyUpdates x b else x), j.id)
  | none => (db ++ [newJourney nextId b], nextId)

/-- `addJourneyNote`: reject empty content, 404 on a missing journey,
403 for any caller other than the owner (`sharedWith` is never consulted),
then `journey.addNote(content, req.user.email)`. -/
def addJourneyNote (db : List Journey) (callerId : Nat) (callerEmail : String)
    (jid : Nat) (content : String) : Except ApiError (List Journey) :=
  if content = "" then .error (.badRequest "Note content is required")
  else
    match db.find? (fun j => j.id = jid) with
    | none => .error .notFound
    | some j =>
      if j.userId ≠ callerId then .error .forbidden
      else
        .ok (db.map fun x => if x.id = jid then addNote x content callerEmail else x)

/-- `updateStepCompletion` (PATCH `/journeys/:id/steps/:stepId`): 404 on a
missing journey, 403 for any caller other than the owner, then either
`markStepCompleted` or set-false plus `updateProgress`. -/
def updateStepCompletionCtrl (db : List Journey) (callerId : Nat) (jid : Nat)
    (stepId : String) (completed : Bool) : Except ApiError (List Journey) :=
  match db.find? (fun j => j.id = jid) with
  | none => .error .notFound
  | some j =>
    if j.userId ≠ callerId then .error .forbidden
    else
      .ok (db.map fun x =>
        if x.id = jid then
          if completed then markStepCompleted x stepId
          else updateProgressJ { x with stepCompletion := setB x.stepCompletion stepId false }
        else x)

/-! ## Theorems -/

/-- A document whose `showIf` condition is `{field: "hasCAS", value: true}`. -/
def casTrueDoc : DocItem :=
  { name := "cas-letter", conditionalLogic := some ⟨some ⟨"hasCAS", JSVal.bool true⟩⟩ }

/-- A document whose `showIf` condition is `{field: "hasCAS", value: false}`. -/
def casFalseDoc : DocItem :=
  { name := "no-cas", conditionalLogic := some ⟨some ⟨"hasCAS", JSVal.bool false⟩⟩ }

/-- C1: the claim's truthy/falsy reading of boolean condition values is
false on the code: against answers `{hasCAS: "yes"}` (a truthy non-`true`
answer) a condition with `value === true` evaluates **false** (the code
compares with strict `===`), and against an empty answers map a condition
with `value === false` also evaluates **false** (`undefined === false` is
false), where the claim requires `true` in both cases. -/
theorem c1_counterexample :
    (lookup [("hasCAS", JSVal.str "yes")] "hasCAS").truthy = true ∧
    docVisibleE [("hasCAS", JSVal.str "yes")] casTrueDoc = some false ∧
    (lookup [] "hasCAS").truthy = false ∧
    docVisibleE [] casFalseDoc = some false := by
  decide

/-- C1 (amended): both condition evaluators return `true` iff
`answers[field] === value` under strict equality for **every** scalar
`value`, booleans included; a document with no `conditionalLogic` (or one
lacking `showIf`) and a non-conditional step always evaluate `true`. -/
theorem c1_strict_equality (answers : JSObj) (field : String) (value : JSVal)
    (n : String) (k : Int) :
    docVisibleE answers
        { name := n, conditionalLogic := some ⟨some ⟨field, value⟩⟩ } =
      some (JSVal.strictEq (lookup answers field) value) ∧
    docVisibleE answers { name := n, conditionalLogic := none } = some true ∧
    docVisibleE answers { name := n, conditionalLogic := some ⟨none⟩ } = some true ∧
    stepVisibleE answers
        { name := n, stepNumber := k, isConditional := true
          conditionalLogic := some ⟨some ⟨field, value⟩⟩ } =
      some (JSVal.strictEq (lookup answers field) value) ∧
    stepVisibleE answers
        { name := n, stepNumber := k, isConditional := false
          conditionalLogic := none } = some true := by
  exact ⟨rfl, rfl, rfl, rfl, rfl⟩

/-- Folding the fee accumulator equals the base plus the sum of the amounts
of the fees passing the predicate. -/
theorem foldl_fee_eq_sum (p : AdditionalFee → Bool) :
    ∀ (l : List AdditionalFee) (b : Int),
      l.foldl (fun total af => if p af then total + af.amount else total) b =
        b + (((l.filter p).map (fun af => af.amount)).sum)
  | [], b => by simp
  | af :: rest, b => by
    by_cases h : p af
    · simp [List.filter_cons, h, foldl_fee_eq_sum p rest]
      ring
    · simp [List.filter_cons, h, foldl_fee_eq_sum p rest]

/-- The fee schedule of the worked example: base 524, additional fees 776
(condition `{hasCAS: true}`) and 500 (condition `{priorityService: true}`). -/
def exampleFees : Fees :=
  { base := some 524
    additional := some
      [ { amount := 776, conditions := some [("hasCAS", JSVal.bool true)] }
      , { amount := 500, conditions := some [("priorityService", JSVal.bool true)] } ] }

/-- C7: `calculateTotalFee` returns `fees.base || 0` plus the sum of the
amounts of exactly those additional fees whose conditions evaluate true
against the answers (non-matching fees contribute zero); on the worked
example (base 524, additional 776 on `hasCAS` and 500 on `priorityService`,
answers `{hasCAS: true}`) the total is 1300. -/
theorem c7_total_fee :
    (∀ (f : Fees) (pd : JSObj),
      calculateTotalFee (some f) pd =
        f.base.getD 0 +
          (((f.additional.getD []).filter
              (fun af => evaluateConditions af.conditions pd)).map
            (fun af => af.amount)).sum) ∧
    calculateTotalFee (some exampleFees) [("hasCAS", JSVal.bool true)] = 1300 := by
  constructor
  · intro f pd
    unfold calculateTotalFee
    cases h : f.additional with
    | none => simp [h]
    | some adds => simp [h, foldl_fee_eq_sum]
  · decide

/-- The raw (untagged) PDF catalog item used as the C8 witness input. -/
def casPdfItem : PdfItem :=
  { name := "cas-letter", conditions := some [("hasCAS", JSVal.bool true)] }

/-- C8: the claim is false for `getConditionalDocuments`: the item it
returns is the catalog item unchanged, whose `isPersonalized` property is
absent (`none`), not `true` — even though the item carried a condition
clause that evaluated true. -/
theorem c8_counterexample :
    getConditionalDocuments [casTrueDoc] [("hasCAS", JSVal.bool true)] =
      some [casTrueDoc] ∧
    casTrueDoc.conditionalLogic.isSome = true ∧
    casTrueDoc.isPersonalized = none := by
  decide

/-- C8 (amended): the PDF service's `processDocuments` and
`processVisaSteps` are the personalizers that tag items: every returned item
carries `isPersonalized = some b` with `b` true iff the item carries a
condition clause; the VisaType methods return items untagged. -/
theorem c8_isPersonalized (documents steps : List PdfItem) (pd : JSObj) :
    (∀ d ∈ processDocuments documents pd,
      d.isPersonalized = some d.conditions.isSome) ∧
    (∀ s ∈ processVisaSteps steps pd,
      s.isPersonalized = some s.conditions.isSome) := by
  constructor
  · intro d hd
    unfold processDocuments at hd
    obtain ⟨d0, _, rfl⟩ := List.mem_map.mp hd
    rfl
  · intro s hs
    unfold processVisaSteps at hs
    obtain ⟨s0, _, rfl⟩ := List.mem_map.mp hs
    rfl

/-- C8 witness: the tagged CAS document produced by `processDocuments` on a
one-item catalog carries `isPersonalized = some true`. -/
theorem c8_witness :
    ({ casPdfItem with isPersonalized := some true } : PdfItem).isPersonalized =
      some ({ casPdfItem with isPersonalized := some true } : PdfItem).conditions.isSome :=
  (c8_isPersonalized [casPdfItem] [] [("hasCAS", JSVal.bool true)]).1
    { casPdfItem with isPersonalized := some true } (by decide)

/-- A conditional step whose `conditionalLogic` is present but carries no
`showIf` clause. -/
def noShowIfStep : StepItem :=
  { name := "atas", stepNumber := 3, isConditional := true
    conditionalLogic := some ⟨none⟩ }

/-- C9: the claim's totality is false for `getPersonalizedSteps`: on a step
whose `isConditional` is true and whose `conditionalLogic` is present but
lacks `showIf`, the code destructures `conditionalLogic.showIf` and throws
a `TypeError` (modelled as `none`). -/
theorem c9_counterexample :
    stepVisibleE [] noShowIfStep = none ∧
    getPersonalizedSteps [noShowIfStep] [] = none := by
  decide

/-- The document filter predicate never throws: every branch is guarded. -/
theorem docVisibleE_isSome (a : JSObj) (d : DocItem) : (docVisibleE a d).isSome := by
  unfold docVisibleE
  cases d.conditionalLogic with
  | none => rfl
  | some cl =>
    obtain ⟨si⟩ := cl
    cases si <;> rfl

/-- `filterDocs` never throws. -/
theorem filterDocs_isSome (a : JSObj) : ∀ docs, (filterDocs a docs).isSome
  | [] => rfl
  | d :: rest => by
    have h1 := docVisibleE_isSome a d
    have h2 := filterDocs_isSome a rest
    unfold filterDocs
    cases hv : docVisibleE a d with
    | none => rw [hv] at h1; simp at h1
    | some v =>
      cases ht : filterDocs a rest with
      | none => rw [ht] at h2; simp at h2
      | some tail => cases v <;> simp [hv, ht]

/-- A guarded step predicate never throws. -/
theorem stepVisibleE_isSome (a : JSObj) (s : StepItem)
    (h : ∀ cl, s.conditionalLogic = some cl → cl.showIf ≠ none) :
    (stepVisibleE a s).isSome := by
  unfold stepVisibleE
  cases hb : (!s.isConditional || s.conditionalLogic.isNone) with
  | true => simp
  | false =>
    simp only [hb, Bool.false_eq_true, if_false]
    cases hcl : s.conditionalLogic with
    | none => simp
    | some cl =>
      cases hsi : cl.showIf with
      | none => exact absurd hsi (h cl hcl)
      | some si => simp [hsi]

/-- `filterSteps` never throws when every step's `conditionalLogic`, if
present, carries `showIf`. -/
theorem filterSteps_isSome (a : JSObj) :
    ∀ steps : List StepItem,
      (∀ s ∈ steps, ∀ cl, s.conditionalLogic = some cl → cl.showIf ≠ none) →
      (filterSteps a steps).isSome
  | [], _ => rfl
  | s :: rest, h => by
    have h1 := stepVisibleE_isSome a s (h s (by simp))
    have h2 := filterSteps_isSome a rest (fun x hx => h x (by simp [hx]))
    unfold filterSteps
    cases hv : stepVisibleE a s with
    | none => rw [hv] at h1; simp at h1
    | some v =>
      cases ht : filterSteps a rest with
      | none => rw [ht] at h2; simp at h2
      | some tail => cases v <;> simp [hv, ht]

/-- C9 (amended): `getConditionalDocuments` and the progress recomputation
are total — the document evaluator guards both a missing `conditionalLogic`
and a missing `showIf`, absent answer fields default to `undefined`, and
empty completion maps yield zero; `getPersonalizedSteps` is total only on
steps whose `conditionalLogic`, when present, carries a `showIf` clause. -/
theorem c9_totality (docs : List DocItem) (steps : List StepItem) (a : JSObj)
    (h : ∀ s ∈ steps, ∀ cl, s.conditionalLogic = some cl → cl.showIf ≠ none) :
    (getConditionalDocuments docs a).isSome ∧
    (getPersonalizedSteps steps a).isSome ∧
    (computeMetrics [] []).completionPercentage = 0 := by
  refine ⟨filterDocs_isSome a docs, ?_, by decide⟩
  unfold getPersonalizedSteps
  have := filterSteps_isSome a steps h
  cases hf : filterSteps a steps with
  | none => rw [hf] at this; simp at this
  | some l => simp [hf]

/-- C9 witness: the totality theorem applied to a concrete catalog — one
unconditional document, one guarded conditional step — and empty answers. -/
theorem c9_witness :
    (getConditionalDocuments [{ name := "passport", conditionalLogic := none }] []).isSome ∧
    (getPersonalizedSteps
        [{ name := "cas", stepNumber := 1, isConditional := true
           conditionalLogic := some ⟨some ⟨"hasCAS", JSVal.bool true⟩⟩ }] []).isSome ∧
    (computeMetrics [] []).completionPercentage = 0 :=
  c9_totality [{ name := "passport", conditionalLogic := none }]
    [{ name := "cas", stepNumber := 1, isConditional := true
       conditionalLogic := some ⟨some ⟨"hasCAS", JSVal.bool true⟩⟩ }] []
    (by decide)

/-- The rounded percentage of `c` out of `t` lies in `[0, 100]` whenever
`c ≤ t` and `t > 0`. -/
theorem mathRound_pct_bounds (c t : Nat) (hct : c ≤ t) (ht : 0 < t) :
    0 ≤ mathRound ((c : ℚ) / (t : ℚ) * 100) ∧
      mathRound ((c : ℚ) / (t : ℚ) * 100) ≤ 100 := by
  unfold mathRound
  have ht' : (0 : ℚ) < t := by exact_mod_cast ht
  have h1 : (c : ℚ) / t ≤ 1 := by
    rw [div_le_one ht']
    exact_mod_cast hct
  have h0 : (0 : ℚ) ≤ (c : ℚ) / t := by positivity
  constructor
  · apply Int.le_floor.mpr
    push_cast
    nlinarith
  · have hlt : (⌊(c : ℚ) / t * 100 + 1 / 2⌋ : ℤ) < 101 := by
      apply Int.floor_lt.mpr
      push_cast
      nlinarith
    omega

/-- C3: the recomputed progress metrics count exactly the map sizes and the
`true` entries, and the completion percentage is
`round(100 × completed / total)` — `0` on an empty denominator — and always
lies in `[0, 100]`. -/
theorem c3_progress_metrics (sc cl : BoolMap) :
    (computeMetrics sc cl).totalSteps = sc.length ∧
    (computeMetrics sc cl).completedSteps = (sc.filter (fun p => p.2)).length ∧
    (computeMetrics sc cl).checklistItems = cl.length ∧
    (computeMetrics sc cl).completedChecklistItems = (cl.filter (fun p => p.2)).length ∧
    (computeMetrics sc cl).completionPercentage =
      (if 0 < sc.length + cl.length then
        mathRound
          (100 *
              (((sc.filter (fun p => p.2)).length : ℚ) +
                ((cl.filter (fun p => p.2)).length : ℚ)) /
            (((sc.length : ℚ) + (cl.length : ℚ))))
      else 0) ∧
    0 ≤ (computeMetrics sc cl).completionPercentage ∧
    (computeMetrics sc cl).completionPercentage ≤ 100 := by
  have hct :
      (sc.filter (fun p => p.2)).length + (cl.filter (fun p => p.2)).length ≤
        sc.length + cl.length :=
    Nat.add_le_add (List.length_filter_le _ _) (List.length_filter_le _ _)
  refine ⟨rfl, rfl, rfl, rfl, ?_, ?_, ?_⟩
  · show (if 0 < sc.length + cl.length then
        mathRound
          ((((sc.filter (fun p => p.2)).length + (cl.filter (fun p => p.2)).length : Nat) : ℚ) /
            ((sc.length + cl.length : Nat) : ℚ) * 100)
      else 0) = _
    by_cases ht : 0 < sc.length + cl.length
    · simp only [ht, if_true]
      congr 1
      push_cast
      ring
    · simp [ht]
  · show 0 ≤ (if 0 < sc.length + cl.length then
        mathRound
          ((((sc.filter (fun p => p.2)).length + (cl.filter (fun p => p.2)).length : Nat) : ℚ) /
            ((sc.length + cl.length : Nat) : ℚ) * 100)
      else 0)
    by_cases ht : 0 < sc.length + cl.length
    · simp only [ht, if_true]
      exact (mathRound_pct_bounds _ _ hct ht).1
    · simp [ht]
  · show (if 0 < sc.length + cl.length then
        mathRound
          ((((sc.filter (fun p => p.2)).length + (cl.filter (fun p => p.2)).length : Nat) : ℚ) /
            ((sc.length + cl.length : Nat) : ℚ) * 100)
      else 0) ≤ 100
    by_cases ht : 0 < sc.length + cl.length
    · simp only [ht, if_true]
      exact (mathRound_pct_bounds _ _ hct ht).2
    · simp [ht]

/-- In the update-in-place branch of `Map.set`, the updated key reads back
the new value. -/
theorem getB_map_update (k : String) (v : Bool) :
    ∀ m : BoolMap, m.any (fun p => p.1 = k) = true →
      getB (m.map (fun p => if p.1 = k then (k, v) else p)) k = some v
  | [], h => by simp at h
  | p :: rest, h => by
    by_cases hp : p.1 = k
    · simp [getB, List.find?_cons, hp]
    · simp only [List.any_cons, Bool.or_eq_true, decide_eq_true_eq] at h
      rcases h with h | h
      · exact absurd h hp
      · simpa [getB, List.find?_cons, hp] using getB_map_update k v rest h

/-- `map.get(k)` after `map.set(k, v)` returns `v`. -/
theorem getB_setB_self (m : BoolMap) (k : String) (v : Bool) :
    getB (setB m k v) k = some v := by
  unfold setB
  by_cases h : m.any (fun p => p.1 = k) = true
  · simpa [h] using getB_map_update k v m h
  · simp only [h, if_false]
    induction m with
    | nil => simp [getB, List.find?_cons]
    | cons p rest ih =>
      simp only [List.any_cons, Bool.or_eq_true, not_or] at h
      have hp : ¬ p.1 = k := by
        intro hk
        exact h.1 (by simp [hk])
      simpa [getB, List.find?_cons, hp] using ih h.2

/-- Updating the binding of key `k` in place leaves lookups of any other
key unchanged. -/
theorem findMapOther (k k' : String) (v : Bool) (hne : k' ≠ k) :
    ∀ m : BoolMap,
      (m.map (fun p => if p.1 = k then (k, v) else p)).find? (fun p => p.1 = k') =
        m.find? (fun p => p.1 = k')
  | [] => rfl
  | p :: rest => by
    by_cases hp : p.1 = k
    · have hk' : ¬ ((k : String) = k') := fun hk => hne hk.symm
      have hp' : ¬ (p.1 = k') := by rw [hp]; exact hk'
      simp [List.find?_cons, hp, hk', hp', findMapOther k k' v hne rest]
    · by_cases hp' : p.1 = k'
      · simp [List.find?_cons, hp, hp', hne]
      · simp [List.find?_cons, hp, hp', findMapOther k k' v hne rest]

/-- `map.set(k, v)` leaves every other key unchanged. -/
theorem getB_setB_other (m : BoolMap) (k k' : String) (v : Bool) (hne : k' ≠ k) :
    getB (setB m k v) k' = getB m k' := by
  unfold setB
  by_cases h : m.any (fun p => p.1 = k) = true
  · rw [if_pos h]
    unfold getB
    rw [findMapOther k k' v hne m]
  · rw [if_neg h]
    unfold getB
    rw [List.find?_append]
    have hnone : ([((k : String), v)].find? (fun p => p.1 = k')) = none := by
      simp [List.find?_cons, Ne.symm hne]
    rw [hnone]
    cases m.find? (fun p => p.1 = k') <;> rfl

/-- A fresh journey (the state produced by the create branch for an
IN → GB student route, before any updates). -/
def freshJourney (id userId : Nat) : Journey :=
  { id := id
    userId := userId
    originCountry := "IN"
    destinationCountry := "GB"
    userType := "student"
    visaType := "student"
    status := "started"
    personalizationData := []
    stepCompletion := []
    checklist := []
    progressMetrics := computeMetrics [] []
    timestamps := { journeyStarted := true, lastActivity := true }
    notes := []
    sharedWith := [] }

/-- A journey whose stored personalization already has `hasCAS: true` but
whose CAS steps were never auto-completed. -/
def casJourney : Journey :=
  { freshJourney 1 1 with personalizationData := [("hasCAS", JSVal.bool true)] }

/-- C2: the claim is false on the code: `updatePersonalization` tests
`personalizationData.hasCAS` on the **partial update**, not on the merged
result. On a journey whose stored personalization already has
`hasCAS: true`, an update not mentioning `hasCAS` leaves the merged result
with `hasCAS == true`, yet neither step is completed and
`casAutoCompleted` is not stamped. -/
theorem c2_counterexample :
    (lookup (updatePersonalization casJourney []).personalizationData "hasCAS").truthy
        = true ∧
    getB (updatePersonalization casJourney []).stepCompletion "cas" ≠ some true ∧
    getB (updatePersonalization casJourney []).stepCompletion "unconditional-offer"
        ≠ some true ∧
    (updatePersonalization casJourney []).timestamps.casAutoCompleted = false := by
  decide

/-- C2 (amended): the CAS auto-completion fires exactly when the partial
update itself carries a truthy `hasCAS`: then, after
`updatePersonalization`, both `unconditional-offer` and `cas` read back
`true` and `casAutoCompleted` is stamped. -/
theorem c2_partial_cas_autocomplete (j : Journey) (p : JSObj)
    (h : (lookup p "hasCAS").truthy = true) :
    getB (updatePersonalization j p).stepCompletion "unconditional-offer" = some true ∧
    getB (updatePersonalization j p).stepCompletion "cas" = some true ∧
    (updatePersonalization j p).timestamps.casAutoCompleted = true := by
  simp only [updatePersonalization, updateProgressJ, h, if_true]
  refine ⟨?_, ?_, trivial⟩
  · rw [getB_setB_other _ _ _ _ (by decide), getB_setB_self]
  · rw [getB_setB_self]

/-- C2 witness: the amended rule evaluated on a fresh journey and the
partial update `{hasCAS: true}`. -/
theorem c2_witness :
    getB (updatePersonalization (freshJourney 1 1) [("hasCAS", JSVal.bool true)]).stepCompletion
        "unconditional-offer" = some true ∧
    getB (updatePersonalization (freshJourney 1 1) [("hasCAS", JSVal.bool true)]).stepCompletion
        "cas" = some true ∧
    (updatePersonalization (freshJourney 1 1)
        [("hasCAS", JSVal.bool true)]).timestamps.casAutoCompleted = true :=
  c2_partial_cas_autocomplete (freshJourney 1 1) [("hasCAS", JSVal.bool true)] (by decide)

/-- C10: when the partial update's `hasCAS` is absent or falsy,
`updatePersonalization` leaves the `stepCompletion` map exactly as it was —
in particular previously auto-completed `cas` and `unconditional-offer`
entries read back unchanged; the rule never reverts a step. -/
theorem c10_frame (j : Journey) (p : JSObj)
    (h : (lookup p "hasCAS").truthy = false) :
    (updatePersonalization j p).stepCompletion = j.stepCompletion ∧
    getB (updatePersonalization j p).stepCompletion "cas" =
      getB j.stepCompletion "cas" ∧
    getB (updatePersonalization j p).stepCompletion "unconditional-offer" =
      getB j.stepCompletion "unconditional-offer" := by
  have hsc : (updatePersonalization j p).stepCompletion = j.stepCompletion := by
    simp only [updatePersonalization, updateProgressJ, h, Bool.false_eq_true, if_false]
  exact ⟨hsc, by rw [hsc], by rw [hsc]⟩

/-- The CAS journey after its steps were auto-completed. -/
def casDoneJourney : Journey :=
  updatePersonalization casJourney [("hasCAS", JSVal.bool true)]

/-- C10 witness: on the auto-completed journey, the update
`{hasCAS: false}` leaves both completed steps in place. -/
theorem c10_witness :
    (updatePersonalization casDoneJourney [("hasCAS", JSVal.bool false)]).stepCompletion =
      casDoneJourney.stepCompletion ∧
    getB (updatePersonalization casDoneJourney
        [("hasCAS", JSVal.bool false)]).stepCompletion "cas" =
      getB casDoneJourney.stepCompletion "cas" ∧
    getB (updatePersonalization casDoneJourney
        [("hasCAS", JSVal.bool false)]).stepCompletion "unconditional-offer" =
      getB casDoneJourney.stepCompletion "unconditional-offer" :=
  c10_frame casDoneJourney [("hasCAS", JSVal.bool false)] (by decide)

/-- A journey owned by user 1 and shared with `helper@example.com` with
`edit` permission. -/
def sharedJourney : Journey :=
  { freshJourney 7 1 with
      sharedWith := [{ email := "helper@example.com", permissions := "edit" }] }

/-- C5: the claim's edit-share clause is false on the code: the caller
`helper@example.com` (user 2), present in `sharedWith` with permission
`edit`, still receives Forbidden from `addJourneyNote` — the controller
compares only `journey.userId` and never consults `sharedWith`. -/
theorem c5_counterexample :
    sharedJourney.userId = 1 ∧
    sharedJourney.sharedWith = [{ email := "helper@example.com", permissions := "edit" }] ∧
    addJourneyNote [sharedJourney] 2 "helper@example.com" 7 "hello" =
      .error .forbidden := by
  exact ⟨rfl, rfl, rfl⟩

/-- C5 (amended): every modelled mutating operation is owner-only: any
caller other than `journey.userId` — whether absent from `sharedWith`,
shared with `view`, or shared with `edit` — receives Forbidden from
`addNote` and from `updateStepCompletion`. -/
theorem c5_owner_only (db : List Journey) (cid : Nat) (em : String) (jid : Nat)
    (content stepId : String) (completed : Bool) (j : Journey)
    (hc : content ≠ "")
    (hfind : db.find? (fun x => x.id = jid) = some j)
    (hne : j.userId ≠ cid) :
    addJourneyNote db cid em jid content = .error .forbidden ∧
    updateStepCompletionCtrl db cid jid stepId completed = .error .forbidden := by
  constructor
  · unfold addJourneyNote
    rw [if_neg hc]
    simp only [hfind]
    rw [if_pos hne]
  · unfold updateStepCompletionCtrl
    simp only [hfind]
    rw [if_pos hne]

/-- C5 witness: the owner-only rule evaluated on the shared journey with
the view-only caller user 3. -/
theorem c5_witness :
    addJourneyNote [sharedJourney] 3 "viewer@example.com" 7 "hello" =
      .error .forbidden ∧
    updateStepCompletionCtrl [sharedJourney] 3 7 "cas" true = .error .forbidden :=
  c5_owner_only [sharedJourney] 3 "viewer@example.com" 7 "hello" "cas" true
    sharedJourney (by decide) rfl (by decide)

/-- A 1001-character note body. -/
def longNote : String := String.mk (List.replicate 1001 'a')

set_option maxRecDepth 4096 in
/-- C6: the over-length half of the claim is false on the code: a
1001-character note is accepted — neither the controller (which only
rejects empty content) nor the schema (whose `notes.content` has no
`maxlength`) enforces a 1000-character cap. -/
theorem c6_counterexample :
    1000 < longNote.length ∧
    addJourneyNote [freshJourney 1 1] 1 "a@b.com" 1 longNote =
      .ok [addNote (freshJourney 1 1) longNote "a@b.com"] ∧
    (addNote (freshJourney 1 1) longNote "a@b.com").notes =
      [{ content := longNote, author := "a@b.com" }] := by
  refine ⟨by decide, ?_, rfl⟩
  rfl

/-- C6 (amended): `addNote` fails (400, "Note content is required") exactly
when the content is empty; any non-empty content — with no upper length
bound — is appended as `{content, author}` with `lastActivity` stamped,
every other journey field unchanged. -/
theorem c6_addnote_behavior (db : List Journey) (cid : Nat) (em : String)
    (jid : Nat) (content : String) (j : Journey)
    (hc : content ≠ "")
    (hfind : db.find? (fun x => x.id = jid) = some j)
    (howner : j.userId = cid) :
    addJourneyNote db cid em jid "" = .error (.badRequest "Note content is required") ∧
    addJourneyNote db cid em jid content =
      .ok (db.map fun x => if x.id = jid then addNote x content em else x) ∧
    (addNote j content em).notes = j.notes ++ [{ content := content, author := em }] ∧
    (addNote j content em).stepCompletion = j.stepCompletion ∧
    (addNote j content em).checklist = j.checklist ∧
    (addNote j content em).personalizationData = j.personalizationData ∧
    (addNote j content em).status = j.status ∧
    (addNote j content em).progressMetrics = j.progressMetrics ∧
    (addNote j content em).sharedWith = j.sharedWith ∧
    (addNote j content em).timestamps.lastActivity = true := by
  refine ⟨?_, ?_, rfl, rfl, rfl, rfl, rfl, rfl, rfl, rfl⟩
  · unfold addJourneyNote
    rw [if_pos rfl]
  · unfold addJourneyNote
    rw [if_neg hc]
    simp only [hfind]
    rw [if_neg (fun hcon => hcon howner)]

/-- C6 witness: the amended behavior evaluated on a fresh journey and the
note "hi". -/
theorem c6_witness :
    addJourneyNote [freshJourney 1 1] 1 "user@example.com" 1 "" =
      .error (.badRequest "Note content is required") ∧
    addJourneyNote [freshJourney 1 1] 1 "user@example.com" 1 "hi" =
      .ok ([freshJourney 1 1].map fun x =>
        if x.id = 1 then addNote x "hi" "user@example.com" else x) ∧
    (addNote (freshJourney 1 1) "hi" "user@example.com").notes =
      (freshJourney 1 1).notes ++ [{ content := "hi", author := "user@example.com" }] ∧
    (addNote (freshJourney 1 1) "hi" "user@example.com").stepCompletion =
      (freshJourney 1 1).stepCompletion ∧
    (addNote (freshJourney 1 1) "hi" "user@example.com").checklist =
      (freshJourney 1 1).checklist ∧
    (addNote (freshJourney 1 1) "hi" "user@example.com").personalizationData =
      (freshJourney 1 1).personalizationData ∧
    (addNote (freshJourney 1 1) "hi" "user@example.com").status =
      (freshJourney 1 1).status ∧
    (addNote (freshJourney 1 1) "hi" "user@example.com").progressMetrics =
      (freshJourney 1 1).progressMetrics ∧
    (addNote (freshJourney 1 1) "hi" "user@example.com").sharedWith =
      (freshJourney 1 1).sharedWith ∧
    (addNote (freshJourney 1 1) "hi" "user@example.com").timestamps.lastActivity = true :=
  c6_addnote_behavior [freshJourney 1 1] 1 "user@example.com" 1 "hi"
    (freshJourney 1 1) (by decide) rfl rfl

/-- The filter identifying active journeys of a given user and route. -/
def activeKey (u : Nat) (o d : String) (j : Journey) : Bool :=
  j.userId = u && j.originCountry = o && j.destinationCountry = d &&
    isActiveStatus j.status

/-- How many active journeys a database holds for `(userId, origin,
destination)`. -/
def countActive (db : List Journey) (u : Nat) (o d : String) : Nat :=
  (db.filter (activeKey u o d)).length

/-- The identity and routing fields the update branch never touches. -/
def samePublic (x y : Journey) : Prop :=
  x.id = y.id ∧ x.userId = y.userId ∧ x.originCountry = y.originCountry ∧
    x.destinationCountry = y.destinationCountry ∧ x.status = y.status

theorem samePublic_refl (x : Journey) : samePublic x x :=
  ⟨rfl, rfl, rfl, rfl, rfl⟩

theorem samePublic_trans {x y z : Journey}
    (h1 : samePublic x y) (h2 : samePublic y z) : samePublic x z :=
  ⟨h1.1.trans h2.1, h1.2.1.trans h2.2.1, h1.2.2.1.trans h2.2.2.1,
    h1.2.2.2.1.trans h2.2.2.2.1, h1.2.2.2.2.trans h2.2.2.2.2⟩

theorem updatePersonalization_samePublic (j : Journey) (p : JSObj) :
    samePublic (updatePersonalization j p) j := by
  simp only [updatePersonalization]
  split
  · exact ⟨rfl, rfl, rfl, rfl, rfl⟩
  · exact ⟨rfl, rfl, rfl, rfl, rfl⟩

theorem updateChecklist_samePublic (j : Journey) (c : BoolMap) :
    samePublic (updateChecklist j c) j :=
  ⟨rfl, rfl, rfl, rfl, rfl⟩

theorem markStepCompleted_samePublic (j : Journey) (s : String) :
    samePublic (markStepCompleted j s) j :=
  ⟨rfl, rfl, rfl, rfl, rfl⟩

theorem foldl_mark_samePublic (sc : List (String × Bool)) :
    ∀ j : Journey,
      samePublic
        (sc.foldl
          (fun j (kv : String × Bool) =>
            if kv.2 then markStepCompleted j kv.1 else j) j)
        j := by
  induction sc with
  | nil => intro j; exact samePublic_refl j
  | cons kv rest ih =>
    intro j
    have h1 : samePublic (if kv.2 then markStepCompleted j kv.1 else j) j := by
      cases hb : kv.2
      · simp only [hb, Bool.false_eq_true, if_false]
        exact samePublic_refl j
      · simp only [hb, if_true]
        exact markStepCompleted_samePublic j kv.1
    exact samePublic_trans (ih _) h1

theorem applyBodyUpdates_samePublic (j : Journey) (b : JourneyBody) :
    samePublic (applyBodyUpdates j b) j := by
  cases hp : b.personalizationData <;> cases hc : b.checklist <;>
    cases hs : b.stepCompletion <;>
      simp only [applyBodyUpdates, hp, hc, hs]
  · exact samePublic_refl j
  · rename_i sc
    exact foldl_mark_samePublic sc j
  · rename_i c
    exact updateChecklist_samePublic j c
  · rename_i c sc
    exact samePublic_trans (foldl_mark_samePublic sc (updateChecklist j c))
      (updateChecklist_samePublic j c)
  · rename_i p
    exact updatePersonalization_samePublic j p
  · rename_i p sc
    exact samePublic_trans (foldl_mark_samePublic sc (updatePersonalization j p))
      (updatePersonalization_samePublic j p)
  · rename_i p c
    exact samePublic_trans (updateChecklist_samePublic (updatePersonalization j p) c)
      (updatePersonalization_samePublic j p)
  · rename_i p c sc
    exact samePublic_trans
      (foldl_mark_samePublic sc (updateChecklist (updatePersonalization j p) c))
      (samePublic_trans (updateChecklist_samePublic (updatePersonalization j p) c)
        (updatePersonalization_samePublic j p))

theorem matchesActive_of_samePublic (b : JourneyBody) {x y : Journey}
    (h : samePublic x y) : matchesActive b x = matchesActive b y := by
  obtain ⟨_, h2, h3, h4, h5⟩ := h
  unfold matchesActive
  rw [h2, h3, h4, h5]

theorem activeKey_of_samePublic (u : Nat) (o d : String) {x y : Journey}
    (h : samePublic x y) : activeKey u o d x = activeKey u o d y := by
  obtain ⟨_, h2, h3, h4, h5⟩ := h
  unfold activeKey
  rw [h2, h3, h4, h5]

theorem matchesActive_congr_body {b b2 : JourneyBody}
    (hu : b2.userId = b.userId) (ho : b2.originCountry = b.originCountry)
    (hd : b2.destinationCountry = b.destinationCountry) :
    matchesActive b2 = matchesActive b := by
  funext x
  unfold matchesActive
  rw [hu, ho, hd]

/-- The in-place updater of the found journey. -/
def updAt (b : JourneyBody) (i : Nat) (x : Journey) : Journey :=
  if x.id = i then applyBodyUpdates x b else x

theorem updAt_samePublic (b : JourneyBody) (i : Nat) (x : Journey) :
    samePublic (updAt b i x) x := by
  unfold updAt
  by_cases h : x.id = i
  · rw [if_pos h]
    exact applyBodyUpdates_samePublic x b
  · rw [if_neg h]
    exact samePublic_refl x

/-- A fresh journey satisfies the active-journey query of its own body. -/
theorem matchesActive_newJourney (b : JourneyBody) (n : Nat) :
    matchesActive b (newJourney n b) = true := by
  simp [matchesActive, newJourney, isActiveStatus]

/-- C4: calling `createOrUpdateJourney` twice for the same
`(userId, originCountry, destinationCountry)` with no intervening
terminal-status change acts on the same journey id both times and the
second call adds no record; and one call preserves the at-most-one-active
invariant for every `(userId, route)` key. -/
theorem c4_active_journey_uniqueness (db : List Journey) (b b2 : JourneyBody)
    (n1 n2 : Nat)
    (hu : b2.userId = b.userId) (ho : b2.originCountry = b.originCountry)
    (hd : b2.destinationCountry = b.destinationCountry)
    (hinv : ∀ u o d, countActive db u o d ≤ 1) :
    (createOrUpdateJourney (createOrUpdateJourney db b n1).1 b2 n2).2 =
      (createOrUpdateJourney db b n1).2 ∧
    (createOrUpdateJourney (createOrUpdateJourney db b n1).1 b2 n2).1.length =
      (createOrUpdateJourney db b n1).1.length ∧
    (∀ u o d, countActive (createOrUpdateJourney db b n1).1 u o d ≤ 1) := by
  have hbb : matchesActive b2 = matchesActive b := matchesActive_congr_body hu ho hd
  cases hf : db.find? (matchesActive b) with
  | some j =>
    have hdb1 : createOrUpdateJourney db b n1 = (db.map (updAt b j.id), j.id) := by
      unfold createOrUpdateJourney
      rw [hf]
      rfl
    have hcomp : (matchesActive b) ∘ (updAt b j.id) = matchesActive b :=
      funext fun x => matchesActive_of_samePublic b (updAt_samePublic b j.id x)
    have hfind1 : (db.map (updAt b j.id)).find? (matchesActive b) =
        some (updAt b j.id j) := by
      rw [List.find?_map, hcomp, hf]
      rfl
    have hid : (updAt b j.id j).id = j.id := (updAt_samePublic b j.id j).1
    rw [hdb1]
    refine ⟨?_, ?_, ?_⟩
    · unfold createOrUpdateJourney
      rw [hbb, hfind1]
      exact hid
    · unfold createOrUpdateJourney
      rw [hbb, hfind1]
      simp
    · intro u o d
      unfold countActive
      have hcomp2 : (activeKey u o d) ∘ (updAt b j.id) = activeKey u o d :=
        funext fun x => activeKey_of_samePublic u o d (updAt_samePublic b j.id x)
      rw [List.filter_map, hcomp2, List.length_map]
      exact hinv u o d
  | none =>
    have hdb1 : createOrUpdateJourney db b n1 = (db ++ [newJourney n1 b], n1) := by
      unfold createOrUpdateJourney
      rw [hf]
    have hnomatch : ∀ x ∈ db, ¬ matchesActive b x = true :=
      fun x hx => List.find?_eq_none.mp hf x hx
    have hfind1 : (db ++ [newJourney n1 b]).find? (matchesActive b) =
        some (newJourney n1 b) := by
      rw [List.find?_append, hf]
      simp [List.find?_cons, matchesActive_newJourney]
    rw [hdb1]
    refine ⟨?_, ?_, ?_⟩
    · unfold createOrUpdateJourney
      rw [hbb, hfind1]
      rfl
    · unfold createOrUpdateJourney
      rw [hbb, hfind1]
      simp
    · intro u o d
      unfold countActive
      rw [List.filter_append, List.length_append]
      by_cases hnew : activeKey u o d (newJourney n1 b) = true
      · have hkey : b.userId = u ∧ b.originCountry.toUpper = o ∧
            b.destinationCountry.toUpper = d := by
          simp only [activeKey, newJourney, Bool.and_eq_true, decide_eq_true_eq] at hnew
          exact ⟨hnew.1.1.1, hnew.1.1.2, hnew.1.2⟩
        have hz : db.filter (activeKey u o d) = [] := by
          rw [List.filter_eq_nil_iff]
          intro x hx hax
          apply hnomatch x hx
          simp only [activeKey, Bool.and_eq_true, decide_eq_true_eq] at hax
          simp only [matchesActive, Bool.and_eq_true, decide_eq_true_eq]
          exact ⟨⟨⟨hkey.1 ▸ hax.1.1.1, hkey.2.1 ▸ hax.1.1.2⟩, hkey.2.2 ▸ hax.1.2⟩, hax.2⟩
        rw [hz]
        simp [List.filter, hnew]
      · have hz : [newJourney n1 b].filter (activeKey u o d) = [] := by
          simp [List.filter, hnew]
        rw [hz]
        simpa using hinv u o d

/-- The request body used to exercise the uniqueness theorem. -/
def demoBody : JourneyBody :=
  { userId := 1
    originCountry := "in"
    destinationCountry := "gb"
    userType := some "student"
    visaType := some "student"
    personalizationData := none
    checklist := none
    stepCompletion := none }

/-- C4 witness: starting from an empty database, the create-then-resume
pair acts on one journey id and keeps the invariant. -/
theorem c4_witness :
    (createOrUpdateJourney (createOrUpdateJourney [] demoBody 1).1 demoBody 2).2 =
      (createOrUpdateJourney [] demoBody 1).2 ∧
    (createOrUpdateJourney (createOrUpdateJourney [] demoBody 1).1 demoBody 2).1.length =
      (createOrUpdateJourney [] demoBody 1).1.length ∧
    (∀ u o d, countActive (createOrUpdateJourney [] demoBody 1).1 u o d ≤ 1) :=
  c4_active_journey_uniqueness [] demoBody demoBody 1 2 rfl rfl rfl
    (fun u o d => by simp [countActive])

end VisaMap
